import Mathlib

/-!
Verification of the Banker's-algorithm core of `src/os_simulator.py`.

The Python classes `Process` and `BankerAlgorithm` are embedded shallowly:
mutable objects become immutable records, in-place mutation becomes record
update, and the per-index `for i in range(...)` loops over resource vectors
become maps over `List.range`.  Machine integers are Python's unbounded
integers, so resource amounts are `Int`.  The threading locks in the source
only serialize access; the claims are about the sequential semantics of each
operation, which is what is embedded here.
-/

namespace OSSim

/-- Embeds the Python class `Process` (os_simulator.py lines 17-44).
The `lock` field is omitted: it carries no state.  `status` is the literal
Python string, one of "Waiting", "Running", "Finished". -/
structure Process where
  pid : Nat
  max_demand : List Int
  allocation : List Int
  need : List Int
  status : String
deriving DecidableEq, Repr

instance : Inhabited Process := ⟨⟨0, [], [], [], "Waiting"⟩⟩

/-- `Process.__init__` (lines 19-25): allocation starts at the zero vector,
`need` starts as a copy of `max_demand`, status starts as "Waiting". -/
def Process.init (pid : Nat) (max_demand : List Int) : Process :=
  { pid := pid
    max_demand := max_demand
    allocation := List.replicate max_demand.length 0
    need := max_demand
    status := "Waiting" }

/-- `Process.update_need` (lines 27-29):
`need = [max_demand[i] - allocation[i] for i in range(len(max_demand))]`. -/
def update_need (p : Process) : Process :=
  { p with
    need := (List.range p.max_demand.length).map
      (fun i => p.max_demand.getD i 0 - p.allocation.getD i 0) }

/-- `Process._is_finished` (lines 31-32): `all(need == 0 for need in self.need)`. -/
def _is_finished (p : Process) : Bool :=
  p.need.all (fun x => x == 0)

/-- Embeds the Python class `BankerAlgorithm` (lines 47-146); the `lock`
field is omitted. -/
structure BankerAlgorithm where
  num_processes : Nat
  num_resources : Nat
  available : List Int
  processes : List Process
deriving DecidableEq, Repr

/-- Elementwise sum on the first `n` indices, as in the Python loops
`for j in range(self.num_resources): work[j] += ...[j]`.  Out-of-range
indices read as 0, which never happens on well-formed states. -/
def vecAdd (n : Nat) (a b : List Int) : List Int :=
  (List.range n).map (fun i => a.getD i 0 + b.getD i 0)

/-- Elementwise difference on the first `n` indices (`available[i] -= request[i]`
and friends). -/
def vecSub (n : Nat) (a b : List Int) : List Int :=
  (List.range n).map (fun i => a.getD i 0 - b.getD i 0)

/-- `any(a[i] > b[i] for i in range(n))`, the shape of all three rejection
tests in the source (lines 94, 97, 132). -/
def anyGT (n : Nat) (a b : List Int) : Bool :=
  (List.range n).any (fun i => b.getD i 0 < a.getD i 0)

/-- `all(a[j] <= b[j] for j in range(n))`, the `can_allocate` test
(lines 68-71). -/
def allLE (n : Nat) (a b : List Int) : Bool :=
  (List.range n).all (fun i => a.getD i 0 ≤ b.getD i 0)

/-- `self.processes[i]`; out-of-range access (an `IndexError` in Python)
reads the default process, which never happens on well-formed inputs. -/
def getP (b : BankerAlgorithm) (i : Nat) : Process :=
  b.processes.getD i default

/-- The inner `for i in range(self.num_processes)` scan with `break`
(lines 65-80): the first unfinished process whose need fits under `work`. -/
def findProc (b : BankerAlgorithm) (work : List Int) (finish : List Bool) : Option Nat :=
  (List.range b.num_processes).find? (fun i =>
    !(finish.getD i true) && allLE b.num_resources (getP b i).need work)

/-- The `while found` loop of `_is_safe_state` (lines 62-80).  Each iteration
either satisfies one more process (marking a fresh `finish` slot true, so this
happens at most `num_processes` times) or exits; fuel `num_processes + 1`
therefore always suffices and the function computes exactly the loop's
fixpoint. -/
def safeLoop (b : BankerAlgorithm) :
    Nat → List Int → List Bool → List Nat → List Int × List Bool × List Nat
  | 0, work, finish, seq => (work, finish, seq)
  | fuel + 1, work, finish, seq =>
    match findProc b work finish with
    | none => (work, finish, seq)
    | some i =>
        safeLoop b fuel (vecAdd b.num_resources work (getP b i).allocation)
          (finish.set i true) (seq ++ [i])

/-- `BankerAlgorithm._is_safe_state` (lines 57-83): returns
`(all(finish), safe_sequence)`. -/
def _is_safe_state (b : BankerAlgorithm) : Bool × List Nat :=
  let r := safeLoop b (b.num_processes + 1) b.available
    (List.replicate b.num_processes false) []
  (r.2.1.all (fun x => x), r.2.2)

/-- `BankerAlgorithm.is_safe_state` (lines 85-87): the public wrapper just
takes the lock and calls `_is_safe_state`. -/
def is_safe_state (b : BankerAlgorithm) : Bool × List Nat :=
  _is_safe_state b

/-- The four return sites of `request_resources`: the two early rejection
messages (lines 95, 98), the unsafe-state denial (line 125), and the grant
carrying the safe sequence (line 115). -/
inductive ReqResult where
  | exceedsNeed
  | insufficientAvailable
  | unsafeDenied
  | granted (safe_sequence : List Nat)
deriving DecidableEq, Repr

/-- The boolean component of the Python return pair `(bool, str)`:
`True` exactly on the grant return site. -/
def ReqResult.toBool : ReqResult → Bool
  | .granted _ => true
  | _ => false

/-- The requesting process after the tentative application step of
`request_resources` (lines 102-104): `allocation += request`, `need -= request`. -/
def tentProc (b : BankerAlgorithm) (pid : Nat) (request : List Int) : Process :=
  { getP b pid with
    allocation := vecAdd b.num_resources (getP b pid).allocation request
    need := vecSub b.num_resources (getP b pid).need request }

/-- The tentative application step of `request_resources` (lines 100-104):
`available -= request` together with the process update `tentProc`. -/
def tentative (b : BankerAlgorithm) (pid : Nat) (request : List Int) : BankerAlgorithm :=
  { b with
    available := vecSub b.num_resources b.available request
    processes := b.processes.set pid (tentProc b pid request) }

/-- The requesting process after the commit step (lines 109-114):
`update_need()`, then status `"Finished"` if the need is now the zero vector
else `"Running"`. -/
def grantProc (b1 : BankerAlgorithm) (pid : Nat) : Process :=
  { update_need (getP b1 pid) with
    status := if _is_finished (update_need (getP b1 pid)) then "Finished" else "Running" }

/-- The commit step after a safe check (lines 108-115). -/
def commit (b1 : BankerAlgorithm) (pid : Nat) : BankerAlgorithm :=
  { b1 with processes := b1.processes.set pid (grantProc b1 pid) }

/-- The requesting process after the rollback step (lines 119-124): undo the
tentative allocation/need changes, `update_need()`, set status to `"Waiting"`. -/
def rbProc (b1 : BankerAlgorithm) (pid : Nat) (request : List Int) : Process :=
  { update_need
      { getP b1 pid with
        allocation := vecSub b1.num_resources (getP b1 pid).allocation request
        need := vecAdd b1.num_resources (getP b1 pid).need request } with
    status := "Waiting" }

/-- The rollback step after an unsafe check (lines 117-124): restore
`available` and apply the process update `rbProc`. -/
def rollback (b1 : BankerAlgorithm) (pid : Nat) (request : List Int) : BankerAlgorithm :=
  { b1 with
    available := vecAdd b1.num_resources b1.available request
    processes := b1.processes.set pid (rbProc b1 pid request) }

/-- `BankerAlgorithm.request_resources` (lines 89-125). -/
def request_resources (b : BankerAlgorithm) (process_id : Nat) (request : List Int) :
    ReqResult × BankerAlgorithm :=
  if anyGT b.num_resources request (getP b process_id).need then
    (.exceedsNeed, b)
  else if anyGT b.num_resources request b.available then
    (.insufficientAvailable, b)
  else
    let b1 := tentative b process_id request
    let res := _is_safe_state b1
    if res.1 then (.granted res.2, commit b1 process_id)
    else (.unsafeDenied, rollback b1 process_id request)

/-- The two return sites of `release_resources`: the over-release rejection
(line 133) and the success message (line 146). -/
inductive RelResult where
  | overRelease
  | released
deriving DecidableEq, Repr

/-- The releasing process after the application step of `release_resources`
(lines 135-144): `allocation -= release`, `update_need()`, then status
`"Finished"` if the need is now the zero vector else `"Running"`. -/
def relProc (b : BankerAlgorithm) (pid : Nat) (release : List Int) : Process :=
  { update_need
      { getP b pid with
        allocation := vecSub b.num_resources (getP b pid).allocation release } with
    status :=
      if _is_finished (update_need
          { getP b pid with
            allocation := vecSub b.num_resources (getP b pid).allocation release })
      then "Finished" else "Running" }

/-- The unconditional application step of `release_resources` (lines 135-144):
`available += release` together with the process update `relProc`. -/
def releaseApply (b : BankerAlgorithm) (pid : Nat) (release : List Int) : BankerAlgorithm :=
  { b with
    available := vecAdd b.num_resources b.available release
    processes := b.processes.set pid (relProc b pid release) }

/-- `BankerAlgorithm.release_resources` (lines 127-146). -/
def release_resources (b : BankerAlgorithm) (process_id : Nat) (release : List Int) :
    RelResult × BankerAlgorithm :=
  if anyGT b.num_resources release (getP b process_id).allocation then
    (.overRelease, b)
  else
    (.released, releaseApply b process_id release)

/-- One call through the public mutating API. -/
inductive Op where
  | request (pid : Nat) (req : List Int)
  | release (pid : Nat) (rel : List Int)
deriving DecidableEq, Repr

/-- The state after one API call (the returned message is dropped). -/
def applyOp (b : BankerAlgorithm) : Op → BankerAlgorithm
  | .request pid req => (request_resources b pid req).2
  | .release pid rel => (release_resources b pid rel).2

/-- The state after a sequence of API calls. -/
def runOps (b : BankerAlgorithm) (ops : List Op) : BankerAlgorithm :=
  ops.foldl applyOp b

/-- Construction as done by `MainWindow.reset_simulation` (lines 543-562):
one `Process(i, max_demands[i])` per process, then
`BankerAlgorithm(num_processes, num_resources, total.copy(), processes)`
with `available = total` and every allocation zero. -/
def initBanker (total : List Int) (max_demands : List (List Int)) : BankerAlgorithm :=
  { num_processes := max_demands.length
    num_resources := total.length
    available := total
    processes := (List.range max_demands.length).map
        (fun i => Process.init i (max_demands.getD i [])) }

/-- A resource vector in the sense of the spec's data model: one slot per
resource type, non-negative entries. -/
def VecOK (n : Nat) (v : List Int) : Prop :=
  v.length = n ∧ ∀ x ∈ v, 0 ≤ x

/-- A well-formed API call: a valid process id and a resource vector. -/
def OpOK (n np : Nat) : Op → Prop
  | .request pid req => pid < np ∧ VecOK n req
  | .release pid rel => pid < np ∧ VecOK n rel

/-- A well-formed construction input: non-negative totals and one
resource-shaped demand vector per process. -/
def InitOK (total : List Int) (max_demands : List (List Int)) : Prop :=
  (∀ x ∈ total, 0 ≤ x) ∧ ∀ m ∈ max_demands, VecOK total.length m

/-- The per-process part of the state invariant: vectors have the right
length, `need = max_demand - allocation` componentwise, and `need` is
non-negative. -/
def GoodProc (n : Nat) (p : Process) : Prop :=
  p.max_demand.length = n ∧ p.allocation.length = n ∧ p.need.length = n ∧
  (∀ j, j < n → p.need.getD j 0 = p.max_demand.getD j 0 - p.allocation.getD j 0) ∧
  (∀ j, j < n → 0 ≤ p.need.getD j 0)

/-- The state invariant: shapes are consistent, `available` is non-negative,
and every process satisfies `GoodProc`. -/
def Good (b : BankerAlgorithm) : Prop :=
  b.available.length = b.num_resources ∧
  b.processes.length = b.num_processes ∧
  (∀ x ∈ b.available, 0 ≤ x) ∧
  ∀ p ∈ b.processes, GoodProc b.num_resources p

/-- The classic five-process three-resource configuration used by the spec's
test vectors: total resources. -/
def classicTotal : List Int := [10, 5, 7]

/-- Classic configuration: the five maximum-demand vectors. -/
def classicMax : List (List Int) := [[7, 5, 3], [3, 2, 2], [9, 0, 2], [2, 2, 2], [4, 3, 3]]

/-- The five granted requests that move the freshly constructed system to the
classic allocation P0=(0,1,0) P1=(2,0,0) P2=(3,0,2) P3=(2,1,1) P4=(0,0,2). -/
def classicSetup : List Op :=
  [.request 0 [0, 1, 0], .request 1 [2, 0, 0], .request 2 [3, 0, 2],
   .request 3 [2, 1, 1], .request 4 [0, 0, 2]]

/-- The classic configuration, reached from construction by granting the five
set-up requests. -/
def classic : BankerAlgorithm :=
  runOps (initBanker classicTotal classicMax) classicSetup

/-! ### Helper lemmas about resource-vector primitives -/

theorem length_vecAdd (n : Nat) (a b : List Int) : (vecAdd n a b).length = n := by
  simp [vecAdd]

theorem length_vecSub (n : Nat) (a b : List Int) : (vecSub n a b).length = n := by
  simp [vecSub]

theorem getD_mapRange {n j : Nat} (f : Nat → Int) (h : j < n) :
    ((List.range n).map f).getD j 0 = f j := by
  rw [List.getD_eq_getElem _ _ (by simpa using h)]
  simp

theorem getD_vecAdd {n j : Nat} (a b : List Int) (h : j < n) :
    (vecAdd n a b).getD j 0 = a.getD j 0 + b.getD j 0 :=
  getD_mapRange _ h

theorem getD_vecSub {n j : Nat} (a b : List Int) (h : j < n) :
    (vecSub n a b).getD j 0 = a.getD j 0 - b.getD j 0 :=
  getD_mapRange _ h

theorem anyGT_eq_true_iff {n : Nat} {a b : List Int} :
    anyGT n a b = true ↔ ∃ j, j < n ∧ b.getD j 0 < a.getD j 0 := by
  simp [anyGT]

theorem anyGT_eq_false_iff {n : Nat} {a b : List Int} :
    anyGT n a b = false ↔ ∀ j, j < n → a.getD j 0 ≤ b.getD j 0 := by
  simp [anyGT, not_lt]

theorem getD_nonneg {v : List Int} (hv : ∀ x ∈ v, 0 ≤ x) (j : Nat) : 0 ≤ v.getD j 0 := by
  rcases Nat.lt_or_ge j v.length with h | h
  · rw [List.getD_eq_getElem _ _ h]
    exact hv _ (v.getElem_mem h)
  · rw [List.getD_eq_default _ _ h]

theorem ext_getD {a b : List Int} {m : Nat} (ha : a.length = m) (hb : b.length = m)
    (h : ∀ j, j < m → a.getD j 0 = b.getD j 0) : a = b := by
  apply List.ext_getElem (by omega)
  intro i h1 h2
  have h3 := h i (by omega)
  rwa [List.getD_eq_getElem _ _ h1, List.getD_eq_getElem _ _ h2] at h3

theorem getD_set_self {α : Type} {l : List α} {i : Nat} {x d : α} (h : i < l.length) :
    (l.set i x).getD i d = x := by
  rw [List.getD_eq_getElem _ _ (by simpa using h)]
  simp [h]

theorem getD_set_ne {α : Type} {l : List α} {i j : Nat} (x d : α) (h : i ≠ j) :
    (l.set i x).getD j d = l.getD j d := by
  rcases Nat.lt_or_ge j l.length with hj | hj
  · rw [List.getD_eq_getElem _ _ (by simpa using hj), List.getD_eq_getElem _ _ hj]
    exact List.getElem_set_ne h _
  · rw [List.getD_eq_default _ _ (by simpa using hj), List.getD_eq_default _ _ hj]

theorem set_getD_self {α : Type} {l : List α} {i : Nat} {d : α} (h : i < l.length) :
    l.set i (l.getD i d) = l := by
  apply List.ext_getElem (by simp)
  intro k h1 h2
  by_cases hk : i = k
  · subst hk
    rw [List.getElem_set_self, List.getD_eq_getElem _ _ h]
  · rw [List.getElem_set_ne hk]

theorem sum_map_set (f : Process → Int) (l : List Process) :
    ∀ (i : Nat) (x : Process), i < l.length →
      ((l.set i x).map f).sum = (l.map f).sum - f (l.getD i default) + f x := by
  induction l with
  | nil => intro i x h; simp at h
  | cons a l ih =>
    intro i x h
    cases i with
    | zero => simp; ring
    | succ i =>
      simp only [List.set_cons_succ, List.map_cons, List.sum_cons, List.getD_cons_succ]
      rw [ih i x (by simpa using h)]
      ring

/-! ### Branch characterizations of the two operations -/

theorem request_eq_exceeds {b : BankerAlgorithm} {pid : Nat} {req : List Int}
    (h1 : anyGT b.num_resources req (getP b pid).need = true) :
    request_resources b pid req = (.exceedsNeed, b) := by
  simp [request_resources, h1]

theorem request_eq_insufficient {b : BankerAlgorithm} {pid : Nat} {req : List Int}
    (h1 : anyGT b.num_resources req (getP b pid).need = false)
    (h2 : anyGT b.num_resources req b.available = true) :
    request_resources b pid req = (.insufficientAvailable, b) := by
  simp [request_resources, h1, h2]

theorem request_eq_granted {b : BankerAlgorithm} {pid : Nat} {req : List Int}
    (h1 : anyGT b.num_resources req (getP b pid).need = false)
    (h2 : anyGT b.num_resources req b.available = false)
    (h3 : (_is_safe_state (tentative b pid req)).1 = true) :
    request_resources b pid req =
      (.granted (_is_safe_state (tentative b pid req)).2, commit (tentative b pid req) pid) := by
  simp [request_resources, h1, h2, h3]

theorem request_eq_denied {b : BankerAlgorithm} {pid : Nat} {req : List Int}
    (h1 : anyGT b.num_resources req (getP b pid).need = false)
    (h2 : anyGT b.num_resources req b.available = false)
    (h3 : (_is_safe_state (tentative b pid req)).1 = false) :
    request_resources b pid req = (.unsafeDenied, rollback (tentative b pid req) pid req) := by
  simp [request_resources, h1, h2, h3]

theorem release_eq_over {b : BankerAlgorithm} {pid : Nat} {rel : List Int}
    (h1 : anyGT b.num_resources rel (getP b pid).allocation = true) :
    release_resources b pid rel = (.overRelease, b) := by
  simp [release_resources, h1]

theorem release_eq_ok {b : BankerAlgorithm} {pid : Nat} {rel : List Int}
    (h1 : anyGT b.num_resources rel (getP b pid).allocation = false) :
    release_resources b pid rel = (.released, releaseApply b pid rel) := by
  simp [release_resources, h1]

/-- Neither operation ever changes `num_processes`, `num_resources`, or the
length of the process list. -/
theorem request_nums (b : BankerAlgorithm) (pid : Nat) (req : List Int) :
    (request_resources b pid req).2.num_processes = b.num_processes ∧
    (request_resources b pid req).2.num_resources = b.num_resources ∧
    (request_resources b pid req).2.processes.length = b.processes.length := by
  by_cases h1 : anyGT b.num_resources req (getP b pid).need
  · rw [request_eq_exceeds h1]
    exact ⟨rfl, rfl, rfl⟩
  · by_cases h2 : anyGT b.num_resources req b.available
    · rw [request_eq_insufficient (by simpa using h1) h2]
      exact ⟨rfl, rfl, rfl⟩
    · by_cases h3 : (_is_safe_state (tentative b pid req)).1
      · rw [request_eq_granted (by simpa using h1) (by simpa using h2) h3]
        refine ⟨rfl, rfl, ?_⟩
        simp [commit, tentative]
      · rw [request_eq_denied (by simpa using h1) (by simpa using h2) (by simpa using h3)]
        refine ⟨rfl, rfl, ?_⟩
        simp [rollback, tentative]

theorem release_nums (b : BankerAlgorithm) (pid : Nat) (rel : List Int) :
    (release_resources b pid rel).2.num_processes = b.num_processes ∧
    (release_resources b pid rel).2.num_resources = b.num_resources ∧
    (release_resources b pid rel).2.processes.length = b.processes.length := by
  by_cases h1 : anyGT b.num_resources rel (getP b pid).allocation
  · rw [release_eq_over h1]
    exact ⟨rfl, rfl, rfl⟩
  · rw [release_eq_ok (by simpa using h1)]
    refine ⟨rfl, rfl, ?_⟩
    simp [releaseApply]

theorem applyOp_nums (b : BankerAlgorithm) (op : Op) :
    (applyOp b op).num_processes = b.num_processes ∧
    (applyOp b op).num_resources = b.num_resources ∧
    (applyOp b op).processes.length = b.processes.length := by
  cases op with
  | request pid req => exact request_nums b pid req
  | release pid rel => exact release_nums b pid rel

theorem runOps_nums (b : BankerAlgorithm) (ops : List Op) :
    (runOps b ops).num_processes = b.num_processes ∧
    (runOps b ops).num_resources = b.num_resources := by
  induction ops generalizing b with
  | nil => exact ⟨rfl, rfl⟩
  | cons op ops ih =>
    have h1 := applyOp_nums b op
    have h2 := ih (applyOp b op)
    simp only [runOps, List.foldl_cons] at h2 ⊢
    exact ⟨h2.1.trans h1.1, h2.2.trans h1.2.1⟩

/-! ### Preservation of the state invariant `Good` -/

theorem all_nonneg_of_getD {v : List Int} (h : ∀ j, j < v.length → 0 ≤ v.getD j 0) :
    ∀ x ∈ v, 0 ≤ x := by
  intro x hx
  obtain ⟨j, hj, hx⟩ := List.getElem_of_mem hx
  have h2 := h j hj
  rwa [List.getD_eq_getElem _ _ hj, hx] at h2

theorem goodProc_getP {b : BankerAlgorithm} (hG : Good b) {pid : Nat}
    (h : pid < b.processes.length) : GoodProc b.num_resources (getP b pid) := by
  apply hG.2.2.2
  unfold getP
  rw [List.getD_eq_getElem _ _ h]
  exact List.getElem_mem h

theorem getP_tentative_self {b : BankerAlgorithm} {pid : Nat} {req : List Int}
    (h : pid < b.processes.length) :
    getP (tentative b pid req) pid = tentProc b pid req := by
  simp only [tentative, getP]
  exact getD_set_self h

theorem grantProc_tentative {b : BankerAlgorithm} {pid : Nat} {req : List Int}
    (h : pid < b.processes.length) :
    grantProc (tentative b pid req) pid =
      { update_need (tentProc b pid req) with
        status := if _is_finished (update_need (tentProc b pid req))
          then "Finished" else "Running" } := by
  rw [grantProc, getP_tentative_self h]

theorem rbProc_tentative {b : BankerAlgorithm} {pid : Nat} {req : List Int}
    (h : pid < b.processes.length) :
    rbProc (tentative b pid req) pid req =
      { update_need
          { tentProc b pid req with
            allocation := vecSub b.num_resources (tentProc b pid req).allocation req
            need := vecAdd b.num_resources (tentProc b pid req).need req } with
        status := "Waiting" } := by
  rw [rbProc, getP_tentative_self h]
  rfl

theorem commit_tentative_processes (b : BankerAlgorithm) (pid : Nat) (req : List Int) :
    (commit (tentative b pid req) pid).processes =
      b.processes.set pid (grantProc (tentative b pid req) pid) := by
  simp only [commit, tentative, List.set_set]

theorem rollback_tentative_processes (b : BankerAlgorithm) (pid : Nat) (req : List Int) :
    (rollback (tentative b pid req) pid req).processes =
      b.processes.set pid (rbProc (tentative b pid req) pid req) := by
  simp only [rollback, tentative, List.set_set]

theorem good_init {total : List Int} {md : List (List Int)} (h : InitOK total md) :
    Good (initBanker total md) := by
  obtain ⟨htot, hmd⟩ := h
  refine ⟨rfl, by simp [initBanker], htot, ?_⟩
  intro p hp
  simp only [initBanker, List.mem_map, List.mem_range] at hp
  obtain ⟨i, hi, rfl⟩ := hp
  have hmem : md.getD i [] ∈ md := by
    rw [List.getD_eq_getElem _ _ hi]
    exact List.getElem_mem hi
  obtain ⟨hlen, hpos⟩ := hmd _ hmem
  refine ⟨hlen, ?_, hlen, ?_, ?_⟩
  · show (List.replicate (md.getD i []).length (0 : Int)).length = total.length
    rw [List.length_replicate]
    exact hlen
  · intro j hj
    simp only [Process.init]
    have hz : (List.replicate (md.getD i []).length (0 : Int)).getD j 0 = 0 := by
      rcases Nat.lt_or_ge j (md.getD i []).length with hjl | hjl
      · rw [List.getD_eq_getElem _ _ (by simpa using hjl)]
        simp
      · exact List.getD_eq_default _ _ (by simpa using hjl)
    rw [hz]
    ring
  · intro j hj
    simp only [Process.init, initBanker] at hj ⊢
    exact getD_nonneg hpos j

theorem good_request (b : BankerAlgorithm) (pid : Nat) (req : List Int) (hG : Good b) :
    Good (request_resources b pid req).2 := by
  obtain ⟨hav, hnp, hpos, hproc⟩ := hG
  by_cases h1 : anyGT b.num_resources req (getP b pid).need
  · rw [request_eq_exceeds h1]
    exact ⟨hav, hnp, hpos, hproc⟩
  by_cases h2 : anyGT b.num_resources req b.available
  · rw [request_eq_insufficient (by simpa using h1) h2]
    exact ⟨hav, hnp, hpos, hproc⟩
  have h1' := anyGT_eq_false_iff.mp (by simpa using h1)
  have h2' := anyGT_eq_false_iff.mp (by simpa using h2)
  have havail : ∀ x ∈ vecSub b.num_resources b.available req, 0 ≤ x := by
    apply all_nonneg_of_getD
    intro j hj
    rw [length_vecSub] at hj
    rw [getD_vecSub _ _ hj]
    have := h2' j hj
    omega
  have hrestored : ∀ x ∈ vecAdd b.num_resources (vecSub b.num_resources b.available req) req,
      0 ≤ x := by
    apply all_nonneg_of_getD
    intro j hj
    rw [length_vecAdd] at hj
    rw [getD_vecAdd _ _ hj, getD_vecSub _ _ hj]
    have := getD_nonneg hpos j
    omega
  by_cases h3 : (_is_safe_state (tentative b pid req)).1
  · rw [request_eq_granted (by simpa using h1) (by simpa using h2) h3]
    refine ⟨by simp [commit, tentative, length_vecSub],
      by simp [commit, tentative, hnp], by simpa [commit, tentative] using havail, ?_⟩
    intro p hp
    rw [commit_tentative_processes] at hp
    rcases List.mem_or_eq_of_mem_set hp with hmem | rfl
    · exact hproc _ hmem
    by_cases hpl : pid < b.processes.length
    · obtain ⟨hm, ha, hn, hnc, hne⟩ := goodProc_getP ⟨hav, hnp, hpos, hproc⟩ hpl
      show GoodProc b.num_resources (grantProc (tentative b pid req) pid)
      rw [grantProc_tentative hpl]
      refine ⟨hm, ?_, ?_, ?_, ?_⟩
      · simp only [update_need, tentProc]
        rw [length_vecAdd]
      · simp only [update_need, tentProc]
        simp [hm]
      · intro j hj
        simp only [update_need, tentProc]
        rw [getD_mapRange _ (by omega)]
      · intro j hj
        simp only [update_need, tentProc]
        rw [getD_mapRange _ (by omega), getD_vecAdd _ _ hj]
        have hc := hnc j hj
        have := h1' j hj
        omega
    · -- out of range: the `set` was a no-op, membership is in the old list
      rw [List.set_eq_of_length_le (by omega)] at hp
      exact hproc _ hp
  · rw [request_eq_denied (by simpa using h1) (by simpa using h2) (by simpa using h3)]
    refine ⟨by simp [rollback, tentative, length_vecAdd],
      by simp [rollback, tentative, hnp],
      by simpa [rollback, tentative] using hrestored, ?_⟩
    intro p hp
    rw [rollback_tentative_processes] at hp
    rcases List.mem_or_eq_of_mem_set hp with hmem | rfl
    · exact hproc _ hmem
    by_cases hpl : pid < b.processes.length
    · obtain ⟨hm, ha, hn, hnc, hne⟩ := goodProc_getP ⟨hav, hnp, hpos, hproc⟩ hpl
      show GoodProc b.num_resources (rbProc (tentative b pid req) pid req)
      rw [rbProc_tentative hpl]
      refine ⟨hm, ?_, ?_, ?_, ?_⟩
      · simp only [update_need, tentProc]
        rw [length_vecSub]
      · simp only [update_need, tentProc]
        simp [hm]
      · intro j hj
        simp only [update_need, tentProc]
        rw [getD_mapRange _ (by omega)]
      · intro j hj
        simp only [update_need, tentProc]
        rw [getD_mapRange _ (by omega), getD_vecSub _ _ hj, getD_vecAdd _ _ hj]
        have hc := hnc j hj
        have := hne j hj
        omega
    · rw [List.set_eq_of_length_le (by omega)] at hp
      exact hproc _ hp

theorem good_release (b : BankerAlgorithm) (pid : Nat) (rel : List Int) (hG : Good b)
    (hrel : ∀ x ∈ rel, 0 ≤ x) : Good (release_resources b pid rel).2 := by
  obtain ⟨hav, hnp, hpos, hproc⟩ := hG
  by_cases h1 : anyGT b.num_resources rel (getP b pid).allocation
  · rw [release_eq_over h1]
    exact ⟨hav, hnp, hpos, hproc⟩
  rw [release_eq_ok (by simpa using h1)]
  refine ⟨by simp [releaseApply, length_vecAdd], by simp [releaseApply, hnp], ?_, ?_⟩
  · apply all_nonneg_of_getD
    intro j hj
    simp only [releaseApply, length_vecAdd] at hj ⊢
    rw [getD_vecAdd _ _ hj]
    have := getD_nonneg hpos j
    have := getD_nonneg hrel j
    omega
  · intro p hp
    simp only [releaseApply] at hp
    rcases List.mem_or_eq_of_mem_set hp with hmem | rfl
    · exact hproc _ hmem
    by_cases hpl : pid < b.processes.length
    · obtain ⟨hm, ha, hn, hnc, hne⟩ := goodProc_getP ⟨hav, hnp, hpos, hproc⟩ hpl
      show GoodProc b.num_resources (relProc b pid rel)
      refine ⟨hm, ?_, ?_, ?_, ?_⟩
      · simp only [relProc, update_need]
        rw [length_vecSub]
      · simp only [relProc, update_need]
        simp [hm]
      · intro j hj
        simp only [relProc, update_need]
        rw [getD_mapRange _ (by omega)]
      · intro j hj
        simp only [relProc, update_need]
        rw [getD_mapRange _ (by omega), getD_vecSub _ _ hj]
        have hc := hnc j hj
        have hd := hne j hj
        have := getD_nonneg hrel j
        omega
    · rw [List.set_eq_of_length_le (by omega)] at hp
      exact hproc _ hp

theorem good_applyOp (b : BankerAlgorithm) (op : Op) (hG : Good b)
    (hop : OpOK b.num_resources b.num_processes op) : Good (applyOp b op) := by
  cases op with
  | request pid req => exact good_request b pid req hG
  | release pid rel => exact good_release b pid rel hG hop.2.2

theorem good_runOps (b : BankerAlgorithm) (ops : List Op) (hG : Good b)
    (hops : ∀ op ∈ ops, OpOK b.num_resources b.num_processes op) : Good (runOps b ops) := by
  induction ops generalizing b with
  | nil => exact hG
  | cons op ops ih =>
    simp only [runOps, List.foldl_cons]
    have hnums := applyOp_nums b op
    apply ih (applyOp b op) (good_applyOp b op hG (hops op (by simp)))
    intro o ho
    rw [hnums.1, hnums.2.1]
    exact hops o (by simp [ho])

/-! ### The safety check reads only `available`, `need` and `allocation` -/

theorem findProc_congr {b b' : BankerAlgorithm}
    (hnp : b.num_processes = b'.num_processes)
    (hnr : b.num_resources = b'.num_resources)
    (hneed : ∀ i, (getP b i).need = (getP b' i).need) :
    ∀ work finish, findProc b work finish = findProc b' work finish := by
  intro work finish
  unfold findProc
  rw [hnp]
  congr 1
  funext i
  rw [hnr, hneed i]

theorem safeLoop_congr {b b' : BankerAlgorithm}
    (hnp : b.num_processes = b'.num_processes)
    (hnr : b.num_resources = b'.num_resources)
    (hneed : ∀ i, (getP b i).need = (getP b' i).need)
    (halloc : ∀ i, (getP b i).allocation = (getP b' i).allocation) :
    ∀ fuel work finish seq,
      safeLoop b fuel work finish seq = safeLoop b' fuel work finish seq := by
  intro fuel
  induction fuel with
  | zero => intro work finish seq; rfl
  | succ fuel ih =>
    intro work finish seq
    simp only [safeLoop]
    rw [findProc_congr hnp hnr hneed work finish, hnr]
    cases h : findProc b' work finish with
    | none => rfl
    | some i =>
      show safeLoop b fuel (vecAdd b'.num_resources work (getP b i).allocation)
          (finish.set i true) (seq ++ [i]) =
        safeLoop b' fuel (vecAdd b'.num_resources work (getP b' i).allocation)
          (finish.set i true) (seq ++ [i])
      rw [halloc i]
      exact ih _ _ _

theorem safe_state_congr {b b' : BankerAlgorithm}
    (hnp : b.num_processes = b'.num_processes)
    (hnr : b.num_resources = b'.num_resources)
    (hav : b.available = b'.available)
    (hneed : ∀ i, (getP b i).need = (getP b' i).need)
    (halloc : ∀ i, (getP b i).allocation = (getP b' i).allocation) :
    _is_safe_state b = _is_safe_state b' := by
  unfold _is_safe_state
  rw [hnp, hav, safeLoop_congr hnp hnr hneed halloc]

/-- On a need-consistent state, committing a granted request only rewrites
`need` to the values it already holds and touches `status`, so the safety
check after the commit equals the safety check made on the tentative state. -/
theorem safe_commit_eq {b : BankerAlgorithm} {pid : Nat} {req : List Int} (hG : Good b) :
    _is_safe_state (commit (tentative b pid req) pid) =
      _is_safe_state (tentative b pid req) := by
  by_cases hpl : pid < b.processes.length
  case neg =>
    -- out-of-range pid: both `set`s are no-ops
    have hset : ∀ q : Process, b.processes.set pid q = b.processes := fun q =>
      List.set_eq_of_length_le (by omega)
    refine safe_state_congr rfl rfl rfl (fun i => ?_) (fun i => ?_) <;>
      simp [commit, tentative, getP, hset]
  case pos =>
    obtain ⟨hm, ha, hn, hnc, hne⟩ := goodProc_getP hG hpl
    have hlen1 : pid < (tentative b pid req).processes.length := by
      simpa [tentative] using hpl
    have hgetc : ∀ i, getP (commit (tentative b pid req) pid) i =
        if pid = i then grantProc (tentative b pid req) pid else getP (tentative b pid req) i := by
      intro i
      by_cases hi : pid = i
      · subst hi
        simp only [commit, getP, if_pos rfl]
        exact getD_set_self hlen1
      · simp only [commit, getP, if_neg hi]
        rw [getD_set_ne _ _ hi]
    refine safe_state_congr rfl rfl rfl (fun i => ?_) (fun i => ?_) <;>
      rw [hgetc i] <;> by_cases hi : pid = i
    · -- need of the committed process equals the tentative need
      rw [if_pos hi]
      subst hi
      rw [grantProc_tentative hpl, getP_tentative_self hpl]
      show (update_need (tentProc b pid req)).need = (tentProc b pid req).need
      simp only [update_need, tentProc]
      apply ext_getD (m := b.num_resources) (by simp [hm]) (by rw [length_vecSub])
      intro j hj
      rw [getD_mapRange _ (by omega), getD_vecSub _ _ hj, getD_vecAdd _ _ hj]
      have := hnc j hj
      omega
    · rw [if_neg hi]
    · -- allocation of the committed process equals the tentative allocation
      rw [if_pos hi]
      subst hi
      rw [grantProc_tentative hpl, getP_tentative_self hpl]
      rfl
    · rw [if_neg hi]

/-- If a request comes back granted on a need-consistent state, an immediate
re-run of the safety check on the new state still says safe. -/
theorem granted_then_safe {b : BankerAlgorithm} {pid : Nat} {req : List Int} (hG : Good b)
    (h : (request_resources b pid req).1.toBool = true) :
    (is_safe_state (request_resources b pid req).2).1 = true := by
  by_cases h1 : anyGT b.num_resources req (getP b pid).need
  · rw [request_eq_exceeds h1] at h
    simp [ReqResult.toBool] at h
  by_cases h2 : anyGT b.num_resources req b.available
  · rw [request_eq_insufficient (by simpa using h1) h2] at h
    simp [ReqResult.toBool] at h
  by_cases h3 : (_is_safe_state (tentative b pid req)).1
  · rw [request_eq_granted (by simpa using h1) (by simpa using h2) h3]
    show (_is_safe_state (commit (tentative b pid req) pid)).1 = true
    rw [safe_commit_eq hG]
    exact h3
  · rw [request_eq_denied (by simpa using h1) (by simpa using h2) (by simpa using h3)] at h
    simp [ReqResult.toBool] at h

/-! ### Conservation of resources -/

/-- For every resource type, what is available plus what is allocated over
all processes equals the configured total. -/
def Conserve (total : List Int) (b : BankerAlgorithm) : Prop :=
  ∀ j, j < b.num_resources →
    b.available.getD j 0 + (b.processes.map (fun p => p.allocation.getD j 0)).sum =
      total.getD j 0

theorem getD_replicate_zero {k j : Nat} : (List.replicate k (0 : Int)).getD j 0 = 0 := by
  rcases Nat.lt_or_ge j k with hjl | hjl
  · rw [List.getD_eq_getElem _ _ (by simpa using hjl)]
    simp
  · exact List.getD_eq_default _ _ (by simpa using hjl)

theorem conserve_init (total : List Int) (md : List (List Int)) :
    Conserve total (initBanker total md) := by
  intro j hj
  have hsum : ((initBanker total md).processes.map (fun p => p.allocation.getD j 0)).sum = 0 := by
    apply List.sum_eq_zero
    intro x hx
    simp only [initBanker, List.map_map, List.mem_map, List.mem_range] at hx
    obtain ⟨i, hi, rfl⟩ := hx
    simp only [Function.comp, Process.init]
    exact getD_replicate_zero
  rw [hsum]
  simp [initBanker]

theorem conserve_request {total : List Int} {b : BankerAlgorithm} {pid : Nat} {req : List Int}
    (hC : Conserve total b) (hpl : pid < b.processes.length) :
    Conserve total (request_resources b pid req).2 := by
  by_cases h1 : anyGT b.num_resources req (getP b pid).need
  · rw [request_eq_exceeds h1]
    exact hC
  by_cases h2 : anyGT b.num_resources req b.available
  · rw [request_eq_insufficient (by simpa using h1) h2]
    exact hC
  by_cases h3 : (_is_safe_state (tentative b pid req)).1
  · rw [request_eq_granted (by simpa using h1) (by simpa using h2) h3]
    intro j hj
    have hj' : j < b.num_resources := hj
    have hC' := hC j hj'
    have hav2 : (commit (tentative b pid req) pid).available.getD j 0 =
        b.available.getD j 0 - req.getD j 0 := by
      show (vecSub b.num_resources b.available req).getD j 0 = _
      exact getD_vecSub _ _ hj'
    rw [commit_tentative_processes] at *
    rw [hav2,
      sum_map_set (fun p => p.allocation.getD j 0) b.processes pid _ hpl,
      grantProc_tentative hpl]
    show b.available.getD j 0 - req.getD j 0 +
        ((b.processes.map (fun p => p.allocation.getD j 0)).sum -
          (b.processes.getD pid default).allocation.getD j 0 +
          (tentProc b pid req).allocation.getD j 0) = total.getD j 0
    have htp : (tentProc b pid req).allocation.getD j 0 =
        (getP b pid).allocation.getD j 0 + req.getD j 0 := by
      show (vecAdd b.num_resources (getP b pid).allocation req).getD j 0 = _
      exact getD_vecAdd _ _ hj'
    rw [htp]
    show b.available.getD j 0 - req.getD j 0 +
        ((b.processes.map (fun p => p.allocation.getD j 0)).sum -
          (getP b pid).allocation.getD j 0 +
          ((getP b pid).allocation.getD j 0 + req.getD j 0)) = total.getD j 0
    omega
  · rw [request_eq_denied (by simpa using h1) (by simpa using h2) (by simpa using h3)]
    intro j hj
    have hj' : j < b.num_resources := hj
    have hC' := hC j hj'
    have hav2 : (rollback (tentative b pid req) pid req).available.getD j 0 =
        b.available.getD j 0 - req.getD j 0 + req.getD j 0 := by
      show (vecAdd b.num_resources (vecSub b.num_resources b.available req) req).getD j 0 = _
      rw [getD_vecAdd _ _ hj', getD_vecSub _ _ hj']
    rw [rollback_tentative_processes] at *
    rw [hav2, sum_map_set (fun p => p.allocation.getD j 0) b.processes pid _ hpl,
      rbProc_tentative hpl]
    have hrb : ((update_need
        { tentProc b pid req with
          allocation := vecSub b.num_resources (tentProc b pid req).allocation req
          need := vecAdd b.num_resources (tentProc b pid req).need req }).allocation).getD j 0 =
        (getP b pid).allocation.getD j 0 + req.getD j 0 - req.getD j 0 := by
      show (vecSub b.num_resources (tentProc b pid req).allocation req).getD j 0 = _
      rw [getD_vecSub _ _ hj']
      have htp : (tentProc b pid req).allocation.getD j 0 =
          (getP b pid).allocation.getD j 0 + req.getD j 0 := by
        show (vecAdd b.num_resources (getP b pid).allocation req).getD j 0 = _
        exact getD_vecAdd _ _ hj'
      rw [htp]
    show b.available.getD j 0 - req.getD j 0 + req.getD j 0 +
        ((b.processes.map (fun p => p.allocation.getD j 0)).sum -
          (b.processes.getD pid default).allocation.getD j 0 +
          ((update_need
            { tentProc b pid req with
              allocation := vecSub b.num_resources (tentProc b pid req).allocation req
              need := vecAdd b.num_resources (tentProc b pid req).need req }).allocation).getD j 0)
        = total.getD j 0
    rw [hrb]
    show b.available.getD j 0 - req.getD j 0 + req.getD j 0 +
        ((b.processes.map (fun p => p.allocation.getD j 0)).sum -
          (getP b pid).allocation.getD j 0 +
          ((getP b pid).allocation.getD j 0 + req.getD j 0 - req.getD j 0)) = total.getD j 0
    omega

theorem conserve_release {total : List Int} {b : BankerAlgorithm} {pid : Nat} {rel : List Int}
    (hC : Conserve total b) (hpl : pid < b.processes.length) :
    Conserve total (release_resources b pid rel).2 := by
  by_cases h1 : anyGT b.num_resources rel (getP b pid).allocation
  · rw [release_eq_over h1]
    exact hC
  rw [release_eq_ok (by simpa using h1)]
  intro j hj
  have hj' : j < b.num_resources := hj
  have hC' := hC j hj'
  have hav2 : (releaseApply b pid rel).available.getD j 0 =
      b.available.getD j 0 + rel.getD j 0 := by
    show (vecAdd b.num_resources b.available rel).getD j 0 = _
    exact getD_vecAdd _ _ hj'
  have hpr : (releaseApply b pid rel).processes = b.processes.set pid (relProc b pid rel) := rfl
  rw [hpr, hav2, sum_map_set (fun p => p.allocation.getD j 0) b.processes pid _ hpl]
  have hrp : (relProc b pid rel).allocation.getD j 0 =
      (getP b pid).allocation.getD j 0 - rel.getD j 0 := by
    show (vecSub b.num_resources (getP b pid).allocation rel).getD j 0 = _
    exact getD_vecSub _ _ hj'
  rw [hrp]
  show b.available.getD j 0 + rel.getD j 0 +
      ((b.processes.map (fun p => p.allocation.getD j 0)).sum -
        (getP b pid).allocation.getD j 0 +
        ((getP b pid).allocation.getD j 0 - rel.getD j 0)) = total.getD j 0
  omega

theorem conserve_applyOp {total : List Int} {b : BankerAlgorithm} {op : Op}
    (hG : Good b) (hC : Conserve total b)
    (hop : OpOK b.num_resources b.num_processes op) : Conserve total (applyOp b op) := by
  cases op with
  | request pid req => exact conserve_request hC (by have := hG.2.1; have := hop.1; omega)
  | release pid rel => exact conserve_release hC (by have := hG.2.1; have := hop.1; omega)

theorem conserve_runOps (total : List Int) (b : BankerAlgorithm) (ops : List Op)
    (hG : Good b) (hC : Conserve total b)
    (hops : ∀ op ∈ ops, OpOK b.num_resources b.num_processes op) :
    Conserve total (runOps b ops) := by
  induction ops generalizing b with
  | nil => exact hC
  | cons op ops ih =>
    simp only [runOps, List.foldl_cons]
    have hnums := applyOp_nums b op
    apply ih (applyOp b op) (good_applyOp b op hG (hops op (by simp)))
      (conserve_applyOp hG hC (hops op (by simp)))
    intro o ho
    rw [hnums.1, hnums.2.1]
    exact hops o (by simp [ho])

/-! ### Extensionality, status and zero-request helpers -/

theorem process_ext {x y : Process} (h1 : x.pid = y.pid) (h2 : x.max_demand = y.max_demand)
    (h3 : x.allocation = y.allocation) (h4 : x.need = y.need) (h5 : x.status = y.status) :
    x = y := by
  cases x
  cases y
  cases h1
  cases h2
  cases h3
  cases h4
  cases h5
  rfl

theorem banker_ext {x y : BankerAlgorithm} (h1 : x.num_processes = y.num_processes)
    (h2 : x.num_resources = y.num_resources) (h3 : x.available = y.available)
    (h4 : x.processes = y.processes) : x = y := by
  cases x
  cases y
  cases h1
  cases h2
  cases h3
  cases h4
  rfl

theorem is_finished_iff {p : Process} {n : Nat} (h : p.need.length = n) :
    _is_finished p = true ↔ ∀ j, j < n → p.need.getD j 0 = 0 := by
  unfold _is_finished
  rw [List.all_eq_true]
  constructor
  · intro ha j hj
    have hjl : j < p.need.length := by omega
    have hmem : p.need.getD j 0 ∈ p.need := by
      rw [List.getD_eq_getElem _ _ hjl]
      exact List.getElem_mem hjl
    simpa using ha _ hmem
  · intro ha x hx
    obtain ⟨j, hj, rfl⟩ := List.getElem_of_mem hx
    have h2 := ha j (by omega)
    rw [List.getD_eq_getElem _ _ hj] at h2
    simpa using h2

theorem ifstatus_iff {q : Process} {n : Nat} (hlen : q.need.length = n) :
    (((if _is_finished q then "Finished" else "Running") : String) = "Finished" ↔
      ∀ j, j < n → q.need.getD j 0 = 0) := by
  by_cases hf : _is_finished q
  · rw [if_pos hf]
    exact iff_of_true rfl ((is_finished_iff hlen).mp hf)
  · rw [if_neg hf]
    refine iff_of_false (by decide) (fun hforall => hf ((is_finished_iff hlen).mpr hforall))

theorem getP_commit_self {b1 : BankerAlgorithm} {pid : Nat}
    (h : pid < b1.processes.length) : getP (commit b1 pid) pid = grantProc b1 pid := by
  simp only [commit, getP]
  exact getD_set_self h

theorem getP_rollback_self {b1 : BankerAlgorithm} {pid : Nat} {req : List Int}
    (h : pid < b1.processes.length) :
    getP (rollback b1 pid req) pid = rbProc b1 pid req := by
  simp only [rollback, getP]
  exact getD_set_self h

theorem getP_releaseApply_self {b : BankerAlgorithm} {pid : Nat} {rel : List Int}
    (h : pid < b.processes.length) :
    getP (releaseApply b pid rel) pid = relProc b pid rel := by
  simp only [releaseApply, getP]
  exact getD_set_self h

/-- Recomputing `need` on an already need-consistent process is the
identity. -/
theorem update_need_self {p : Process} {n : Nat} (hm : p.max_demand.length = n)
    (hn : p.need.length = n)
    (hnc : ∀ j, j < n → p.need.getD j 0 = p.max_demand.getD j 0 - p.allocation.getD j 0) :
    update_need p = p := by
  apply process_ext
  · rfl
  · rfl
  · rfl
  · show (List.range p.max_demand.length).map
        (fun i => p.max_demand.getD i 0 - p.allocation.getD i 0) = p.need
    apply ext_getD (m := n) (by simp [hm]) hn
    intro j hj
    rw [getD_mapRange _ (by omega)]
    have := hnc j hj
    omega
  · rfl

theorem vecAdd_zeroes {n : Nat} {v req : List Int} (hv : v.length = n)
    (hreq : ∀ j, j < n → req.getD j 0 = 0) : vecAdd n v req = v := by
  apply ext_getD (length_vecAdd _ _ _) hv
  intro j hj
  rw [getD_vecAdd _ _ hj, hreq j hj]
  ring

theorem vecSub_zeroes {n : Nat} {v req : List Int} (hv : v.length = n)
    (hreq : ∀ j, j < n → req.getD j 0 = 0) : vecSub n v req = v := by
  apply ext_getD (length_vecSub _ _ _) hv
  intro j hj
  rw [getD_vecSub _ _ hj, hreq j hj]
  ring

/-- A request of all zeroes leaves the tentative state equal to the current
state (on a well-formed, need-consistent state). -/
theorem tentative_zero {b : BankerAlgorithm} {pid : Nat} {req : List Int} (hG : Good b)
    (hreq : ∀ j, j < b.num_resources → req.getD j 0 = 0) :
    tentative b pid req = b := by
  obtain ⟨hav, hnp, hpos, hproc⟩ := hG
  apply banker_ext
  · rfl
  · rfl
  · exact vecSub_zeroes hav hreq
  · show b.processes.set pid (tentProc b pid req) = b.processes
    by_cases hpl : pid < b.processes.length
    · obtain ⟨hm, ha, hn, hnc, hne⟩ := goodProc_getP ⟨hav, hnp, hpos, hproc⟩ hpl
      have htp : tentProc b pid req = getP b pid := by
        apply process_ext
        · rfl
        · rfl
        · exact vecAdd_zeroes ha hreq
        · exact vecSub_zeroes hn hreq
        · rfl
      rw [htp]
      exact set_getD_self hpl
    · exact List.set_eq_of_length_le (by omega)

/-- On a need-consistent state, a denied-unsafe request restores `available`
and the whole process record except that the requester's status is
overwritten with "Waiting" (os_simulator.py line 124). -/
theorem rollback_restores {b : BankerAlgorithm} {pid : Nat} {req : List Int} (hG : Good b) :
    rollback (tentative b pid req) pid req =
      { b with processes := b.processes.set pid { getP b pid with status := "Waiting" } } := by
  obtain ⟨hav, hnp, hpos, hproc⟩ := hG
  apply banker_ext
  · rfl
  · rfl
  · show vecAdd b.num_resources (vecSub b.num_resources b.available req) req = b.available
    apply ext_getD (length_vecAdd _ _ _) hav
    intro j hj
    rw [getD_vecAdd _ _ hj, getD_vecSub _ _ hj]
    omega
  · rw [rollback_tentative_processes]
    by_cases hpl : pid < b.processes.length
    · obtain ⟨hm, ha, hn, hnc, hne⟩ := goodProc_getP ⟨hav, hnp, hpos, hproc⟩ hpl
      congr 1
      rw [rbProc_tentative hpl]
      apply process_ext
      · rfl
      · rfl
      · show vecSub b.num_resources (tentProc b pid req).allocation req =
          (getP b pid).allocation
        apply ext_getD (length_vecSub _ _ _) ha
        intro j hj
        rw [getD_vecSub _ _ hj]
        have htp : (tentProc b pid req).allocation.getD j 0 =
            (getP b pid).allocation.getD j 0 + req.getD j 0 := by
          show (vecAdd b.num_resources (getP b pid).allocation req).getD j 0 = _
          exact getD_vecAdd _ _ hj
        rw [htp]
        omega
      · apply ext_getD (m := b.num_resources)
        · show ((List.range (tentProc b pid req).max_demand.length).map
              (fun i => (tentProc b pid req).max_demand.getD i 0 -
                (vecSub b.num_resources (tentProc b pid req).allocation req).getD i 0)).length =
            b.num_resources
          rw [List.length_map, List.length_range]
          exact hm
        · exact hn
        · intro j hj
          have hjm : j < (tentProc b pid req).max_demand.length := by
            show j < (getP b pid).max_demand.length
            omega
          show ((List.range (tentProc b pid req).max_demand.length).map
              (fun i => (tentProc b pid req).max_demand.getD i 0 -
                (vecSub b.num_resources (tentProc b pid req).allocation req).getD i 0)).getD j 0 =
            (getP b pid).need.getD j 0
          rw [getD_mapRange _ hjm]
          show (getP b pid).max_demand.getD j 0 -
              (vecSub b.num_resources (tentProc b pid req).allocation req).getD j 0 =
            (getP b pid).need.getD j 0
          rw [getD_vecSub _ _ hj]
          have htp : (tentProc b pid req).allocation.getD j 0 =
              (getP b pid).allocation.getD j 0 + req.getD j 0 := by
            show (vecAdd b.num_resources (getP b pid).allocation req).getD j 0 = _
            exact getD_vecAdd _ _ hj
          rw [htp]
          have := hnc j hj
          omega
      · rfl
    · rw [List.set_eq_of_length_le (by omega), List.set_eq_of_length_le (by omega)]

/-! ### Decidability of the well-formedness predicates -/

instance (n : Nat) (v : List Int) : Decidable (VecOK n v) :=
  inferInstanceAs (Decidable (v.length = n ∧ ∀ x ∈ v, 0 ≤ x))

instance (n np : Nat) (op : Op) : Decidable (OpOK n np op) :=
  match op with
  | .request pid v => inferInstanceAs (Decidable (pid < np ∧ VecOK n v))
  | .release pid v => inferInstanceAs (Decidable (pid < np ∧ VecOK n v))

instance (total : List Int) (md : List (List Int)) : Decidable (InitOK total md) :=
  inferInstanceAs (Decidable ((∀ x ∈ total, 0 ≤ x) ∧ ∀ m ∈ md, VecOK total.length m))

instance (n : Nat) (p : Process) : Decidable (GoodProc n p) :=
  inferInstanceAs (Decidable (p.max_demand.length = n ∧ p.allocation.length = n ∧
    p.need.length = n ∧
    (∀ j, j < n → p.need.getD j 0 = p.max_demand.getD j 0 - p.allocation.getD j 0) ∧
    (∀ j, j < n → 0 ≤ p.need.getD j 0)))

instance (b : BankerAlgorithm) : Decidable (Good b) :=
  inferInstanceAs (Decidable (b.available.length = b.num_resources ∧
    b.processes.length = b.num_processes ∧
    (∀ x ∈ b.available, 0 ≤ x) ∧
    ∀ p ∈ b.processes, GoodProc b.num_resources p))

/-! ### Further concrete configurations used by counterexamples and witnesses -/

/-- One resource with 4 units and two processes with maximum demands 4 and 3;
after granting one unit to P0 and two to P1, a further request by P0 is
denied as unsafe. -/
def twoProc : BankerAlgorithm :=
  runOps (initBanker [4] [[4], [3]]) [.request 0 [1], .request 1 [2]]

/-- One resource with a single unit and one process with maximum demand 1;
after its request for the unit is granted the process is Finished. -/
def oneProc : BankerAlgorithm :=
  runOps (initBanker [1] [[1]]) [.request 0 [1]]

/-- Two units of one resource, two processes with maximum demand 1 each;
P0 has been granted its single unit and is Finished, and the state is safe. -/
def safePair : BankerAlgorithm :=
  runOps (initBanker [2] [[1], [1]]) [.request 0 [1]]

/-- The classic set-up followed by a granted request, an unsafe-denied
request, an insufficient-available rejection and a release. -/
def mixedOps : List Op :=
  classicSetup ++ [.request 1 [1, 0, 2], .request 0 [0, 2, 0],
    .request 4 [4, 0, 0], .release 1 [1, 0, 1]]

/-! ### The claims -/

/-- C1: on the classic fixed configuration — total (10,5,7), the five
allocations and maximum demands fixed above, hence available (3,3,2) — the
safety check returns exactly `(true, [1, 3, 0, 2, 4])`. -/
theorem C1_classic_safe_sequence :
    classic.available = [3, 3, 2] ∧
    (getP classic 0).allocation = [0, 1, 0] ∧
    (getP classic 1).allocation = [2, 0, 0] ∧
    (getP classic 2).allocation = [3, 0, 2] ∧
    (getP classic 3).allocation = [2, 1, 1] ∧
    (getP classic 4).allocation = [0, 0, 2] ∧
    is_safe_state classic = (true, [1, 3, 0, 2, 4]) := by
  decide

/-- C2: for every configuration reachable from construction through the
public API (non-negative resource vectors, valid process ids), if a request
comes back granted then an immediately following `is_safe_state` on the
resulting state returns true. -/
theorem C2_safety_preservation (total : List Int) (md : List (List Int)) (ops : List Op)
    (pid : Nat) (req : List Int)
    (hInit : InitOK total md)
    (hops : ∀ op ∈ ops, OpOK total.length md.length op)
    (hgrant : (request_resources (runOps (initBanker total md) ops) pid req).1.toBool = true) :
    (is_safe_state (request_resources (runOps (initBanker total md) ops) pid req).2).1 =
      true := by
  apply granted_then_safe ?_ hgrant
  exact good_runOps _ _ (good_init hInit) hops

/-- Witness for C2 at the classic configuration and the granted request
`requestResources(1, (1,0,2))`. -/
theorem C2_safety_preservation_witness :
    (is_safe_state (request_resources (runOps (initBanker classicTotal classicMax)
      classicSetup) 1 [1, 0, 2]).2).1 = true :=
  C2_safety_preservation classicTotal classicMax classicSetup 1 [1, 0, 2]
    (by decide) (by decide) (by decide)

/-- C3: conservation — for every resource type j, available plus the sum of
all allocations equals the configured total, in every state reachable from
construction (where available = total and allocations are zero) through any
sequence of API calls, granted, rejected and rolled-back alike. -/
theorem C3_conservation (total : List Int) (md : List (List Int)) (ops : List Op)
    (hInit : InitOK total md)
    (hops : ∀ op ∈ ops, OpOK total.length md.length op) :
    Conserve total (runOps (initBanker total md) ops) :=
  conserve_runOps total _ ops (good_init hInit) (conserve_init total md) hops

/-- Witness for C3 after a trace containing a grant, an unsafe-denied
request, an insufficient-available rejection and a release. -/
theorem C3_conservation_witness :
    (runOps (initBanker classicTotal classicMax) mixedOps).available.getD 0 0 +
      ((runOps (initBanker classicTotal classicMax) mixedOps).processes.map
        (fun p => p.allocation.getD 0 0)).sum = classicTotal.getD 0 0 :=
  C3_conservation classicTotal classicMax mixedOps (by decide) (by decide) 0 (by decide)

/-- C5: need consistency — in every reachable state, for every process i and
resource j, `need[i][j] = maxDemand[i][j] - allocation[i][j]`,
`0 ≤ need[i][j]` and `allocation[i][j] ≤ maxDemand[i][j]`. -/
theorem C5_need_consistency (total : List Int) (md : List (List Int)) (ops : List Op)
    (hInit : InitOK total md)
    (hops : ∀ op ∈ ops, OpOK total.length md.length op) :
    ∀ i, i < (runOps (initBanker total md) ops).num_processes →
      ∀ j, j < (runOps (initBanker total md) ops).num_resources →
        (getP (runOps (initBanker total md) ops) i).need.getD j 0 =
          (getP (runOps (initBanker total md) ops) i).max_demand.getD j 0 -
            (getP (runOps (initBanker total md) ops) i).allocation.getD j 0 ∧
        0 ≤ (getP (runOps (initBanker total md) ops) i).need.getD j 0 ∧
        (getP (runOps (initBanker total md) ops) i).allocation.getD j 0 ≤
          (getP (runOps (initBanker total md) ops) i).max_demand.getD j 0 := by
  intro i hi j hj
  have hG := good_runOps _ _ (good_init hInit) hops
  have hpl : i < (runOps (initBanker total md) ops).processes.length := by
    have := hG.2.1
    omega
  obtain ⟨hm, ha, hn, hnc, hne⟩ := goodProc_getP hG hpl
  have h1 := hnc j hj
  have h2 := hne j hj
  exact ⟨h1, h2, by omega⟩

/-- Witness for C5 after the mixed trace, at process 1 and resource 0. -/
theorem C5_need_consistency_witness :
    (getP (runOps (initBanker classicTotal classicMax) mixedOps) 1).need.getD 0 0 =
      (getP (runOps (initBanker classicTotal classicMax) mixedOps) 1).max_demand.getD 0 0 -
        (getP (runOps (initBanker classicTotal classicMax) mixedOps) 1).allocation.getD 0 0 ∧
    0 ≤ (getP (runOps (initBanker classicTotal classicMax) mixedOps) 1).need.getD 0 0 ∧
    (getP (runOps (initBanker classicTotal classicMax) mixedOps) 1).allocation.getD 0 0 ≤
      (getP (runOps (initBanker classicTotal classicMax) mixedOps) 1).max_demand.getD 0 0 :=
  C5_need_consistency classicTotal classicMax mixedOps (by decide) (by decide)
    1 (by decide) 0 (by decide)

/-- C4 counterexample: the claim "a denied request leaves every field,
including status, identical" is false on the code.  In `twoProc` process 0
is "Running"; its request for one more unit is denied as unsafe, and the
rollback branch (os_simulator.py line 124) rewrites its status to
"Waiting". -/
theorem C4_rejection_counterexample :
    (getP twoProc 0).status = "Running" ∧
    (request_resources twoProc 0 [1]).1 = .unsafeDenied ∧
    (getP (request_resources twoProc 0 [1]).2 0).status = "Waiting" := by
  decide

/-- C4 (amended): a request denied by the need check or the availability
check leaves the state bit-for-bit unchanged; a request denied by the
unsafe-state rollback restores `available` and the requester's
allocation/need exactly and leaves every other process untouched, but sets
the requester's status to "Waiting" (which may differ from its pre-call
status). -/
theorem C4_rejection_rollback (b : BankerAlgorithm) (pid : Nat) (req : List Int)
    (hG : Good b) :
    ((request_resources b pid req).1 = .exceedsNeed → (request_resources b pid req).2 = b) ∧
    ((request_resources b pid req).1 = .insufficientAvailable →
      (request_resources b pid req).2 = b) ∧
    ((request_resources b pid req).1 = .unsafeDenied →
      (request_resources b pid req).2 =
        { b with processes := b.processes.set pid { getP b pid with status := "Waiting" } }) := by
  by_cases h1 : anyGT b.num_resources req (getP b pid).need
  · rw [request_eq_exceeds h1]
    exact ⟨fun _ => rfl, fun h => by simp at h, fun h => by simp at h⟩
  by_cases h2 : anyGT b.num_resources req b.available
  · rw [request_eq_insufficient (by simpa using h1) h2]
    exact ⟨fun h => by simp at h, fun _ => rfl, fun h => by simp at h⟩
  by_cases h3 : (_is_safe_state (tentative b pid req)).1
  · rw [request_eq_granted (by simpa using h1) (by simpa using h2) h3]
    exact ⟨fun h => by simp at h, fun h => by simp at h, fun h => by simp at h⟩
  · rw [request_eq_denied (by simpa using h1) (by simpa using h2) (by simpa using h3)]
    refine ⟨fun h => by simp at h, fun h => by simp at h, fun _ => ?_⟩
    show rollback (tentative b pid req) pid req = _
    exact rollback_restores hG

/-- Witness for the amended C4 at the classic configuration and the
insufficient-available rejection `requestResources(4, (4,0,0))`. -/
theorem C4_rejection_rollback_witness :
    (request_resources classic 4 [4, 0, 0]).2 = classic :=
  (C4_rejection_rollback classic 4 [4, 0, 0] (by decide)).2.1 (by decide)

/-- C6: the need check takes precedence over the availability check —
`request_resources` returns the exceeds-need rejection iff some
`request[j] > need[pid][j]`, and the insufficient-available rejection iff
the need check passes and some `request[j] > available[j]`; concretely,
`requestResources(4, (4,0,0))` on the classic configuration is rejected as
insufficient-available with no state change. -/
theorem C6_rejection_precedence (b : BankerAlgorithm) (pid : Nat) (req : List Int) :
    ((request_resources b pid req).1 = .exceedsNeed ↔
      ∃ j, j < b.num_resources ∧ (getP b pid).need.getD j 0 < req.getD j 0) ∧
    ((request_resources b pid req).1 = .insufficientAvailable ↔
      ((∀ j, j < b.num_resources → req.getD j 0 ≤ (getP b pid).need.getD j 0) ∧
        ∃ j, j < b.num_resources ∧ b.available.getD j 0 < req.getD j 0)) ∧
    request_resources classic 4 [4, 0, 0] = (.insufficientAvailable, classic) := by
  refine ⟨?_, ?_, by decide⟩
  · constructor
    · intro h
      by_cases h1 : anyGT b.num_resources req (getP b pid).need
      · exact anyGT_eq_true_iff.mp h1
      exfalso
      by_cases h2 : anyGT b.num_resources req b.available
      · rw [request_eq_insufficient (by simpa using h1) h2] at h
        simp at h
      by_cases h3 : (_is_safe_state (tentative b pid req)).1
      · rw [request_eq_granted (by simpa using h1) (by simpa using h2) h3] at h
        simp at h
      · rw [request_eq_denied (by simpa using h1) (by simpa using h2) (by simpa using h3)] at h
        simp at h
    · intro h
      rw [request_eq_exceeds (anyGT_eq_true_iff.mpr h)]
  · constructor
    · intro h
      by_cases h1 : anyGT b.num_resources req (getP b pid).need
      · rw [request_eq_exceeds h1] at h
        simp at h
      refine ⟨anyGT_eq_false_iff.mp (by simpa using h1), ?_⟩
      by_cases h2 : anyGT b.num_resources req b.available
      · exact anyGT_eq_true_iff.mp h2
      exfalso
      by_cases h3 : (_is_safe_state (tentative b pid req)).1
      · rw [request_eq_granted (by simpa using h1) (by simpa using h2) h3] at h
        simp at h
      · rw [request_eq_denied (by simpa using h1) (by simpa using h2) (by simpa using h3)] at h
        simp at h
    · rintro ⟨hle, hexists⟩
      rw [request_eq_insufficient (anyGT_eq_false_iff.mpr hle) (anyGT_eq_true_iff.mpr hexists)]

/-- C9: from the classic configuration, `requestResources(1, (1,0,2))` is
granted and leaves available (2,3,0), allocation[1] = (3,0,2) and
need[1] = (0,2,0). -/
theorem C9_classic_grant :
    (request_resources classic 1 [1, 0, 2]).1.toBool = true ∧
    (request_resources classic 1 [1, 0, 2]).2.available = [2, 3, 0] ∧
    (getP (request_resources classic 1 [1, 0, 2]).2 1).allocation = [3, 0, 2] ∧
    (getP (request_resources classic 1 [1, 0, 2]).2 1).need = [0, 2, 0] := by
  decide

/-- C7: `release_resources` rejects (leaving the state unchanged) iff some
`release[j] > allocation[pid][j]`; otherwise it applies unconditionally with
no safety re-check — `allocation -= release`, `available += release`, need
recomputed as `maxDemand - allocation` — and sets the status to "Finished"
exactly when the recomputed need is the zero vector, else "Running". -/
theorem C7_release_characterization (b : BankerAlgorithm) (pid : Nat) (rel : List Int)
    (hG : Good b) (hpid : pid < b.num_processes) :
    ((release_resources b pid rel).1 = .overRelease ↔
      ∃ j, j < b.num_resources ∧ (getP b pid).allocation.getD j 0 < rel.getD j 0) ∧
    ((release_resources b pid rel).1 = .overRelease → (release_resources b pid rel).2 = b) ∧
    ((release_resources b pid rel).1 = .released →
      (∀ j, j < b.num_resources →
        (getP (release_resources b pid rel).2 pid).allocation.getD j 0 =
          (getP b pid).allocation.getD j 0 - rel.getD j 0 ∧
        (release_resources b pid rel).2.available.getD j 0 =
          b.available.getD j 0 + rel.getD j 0 ∧
        (getP (release_resources b pid rel).2 pid).need.getD j 0 =
          (getP b pid).max_demand.getD j 0 -
            (getP (release_resources b pid rel).2 pid).allocation.getD j 0) ∧
      ((getP (release_resources b pid rel).2 pid).status = "Finished" ↔
        ∀ j, j < b.num_resources →
          (getP (release_resources b pid rel).2 pid).need.getD j 0 = 0) ∧
      ((∃ j, j < b.num_resources ∧
          (getP (release_resources b pid rel).2 pid).need.getD j 0 ≠ 0) →
        (getP (release_resources b pid rel).2 pid).status = "Running")) := by
  have hpl : pid < b.processes.length := by
    have := hG.2.1
    omega
  obtain ⟨hm, ha, hn, hnc, hne⟩ := goodProc_getP hG hpl
  by_cases h1 : anyGT b.num_resources rel (getP b pid).allocation
  · rw [release_eq_over h1]
    exact ⟨iff_of_true rfl (anyGT_eq_true_iff.mp h1), fun _ => rfl, fun h => by simp at h⟩
  have h1f : anyGT b.num_resources rel (getP b pid).allocation = false := by simpa using h1
  have e1 : (release_resources b pid rel).1 = .released := by rw [release_eq_ok h1f]
  have e2 : (release_resources b pid rel).2 = releaseApply b pid rel := by
    rw [release_eq_ok h1f]
  have hq2len : (update_need
      { getP b pid with
        allocation := vecSub b.num_resources (getP b pid).allocation rel }).need.length =
      b.num_resources := by
    simp [update_need, hm]
  rw [e1, e2, getP_releaseApply_self hpl]
  refine ⟨iff_of_false (by simp) ?_, fun h => by simp at h, fun _ => ⟨?_, ?_, ?_⟩⟩
  · rintro ⟨j, hj, hlt⟩
    have := anyGT_eq_false_iff.mp h1f j hj
    omega
  · intro j hj
    refine ⟨?_, ?_, ?_⟩
    · show (vecSub b.num_resources (getP b pid).allocation rel).getD j 0 =
        (getP b pid).allocation.getD j 0 - rel.getD j 0
      exact getD_vecSub _ _ hj
    · show (vecAdd b.num_resources b.available rel).getD j 0 =
        b.available.getD j 0 + rel.getD j 0
      exact getD_vecAdd _ _ hj
    · show ((List.range (getP b pid).max_demand.length).map
          (fun i => (getP b pid).max_demand.getD i 0 -
            (vecSub b.num_resources (getP b pid).allocation rel).getD i 0)).getD j 0 =
        (getP b pid).max_demand.getD j 0 -
          (vecSub b.num_resources (getP b pid).allocation rel).getD j 0
      exact getD_mapRange _ (by omega)
  · exact ifstatus_iff hq2len
  · rintro ⟨j, hj, hne0⟩
    by_cases hf : _is_finished (update_need
        { getP b pid with
          allocation := vecSub b.num_resources (getP b pid).allocation rel })
    · exact absurd ((is_finished_iff hq2len).mp hf j hj) hne0
    · show (if _is_finished (update_need
          { getP b pid with
            allocation := vecSub b.num_resources (getP b pid).allocation rel })
          then "Finished" else "Running") = "Running"
      rw [if_neg hf]

/-- Witness for C7 at the classic configuration: process 2 releases
(1,0,1), holding (3,0,2). -/
theorem C7_release_characterization_witness :
    (getP (release_resources classic 2 [1, 0, 1]).2 2).allocation.getD 0 0 =
      (getP classic 2).allocation.getD 0 0 - (([1, 0, 1] : List Int)).getD 0 0 :=
  (((C7_release_characterization classic 2 [1, 0, 1] (by decide) (by decide)).2.2
    (by decide)).1 0 (by decide)).1

/-- C8 counterexample: the claim "Finished is terminal" is false on the
code.  In `oneProc` process 0 is Finished with zero need, yet a release of
its one held unit succeeds and moves it back to "Running"
(os_simulator.py lines 141-144). -/
theorem C8_finished_counterexample :
    (getP oneProc 0).status = "Finished" ∧
    _is_finished (getP oneProc 0) = true ∧
    (release_resources oneProc 0 [1]).1 = .released ∧
    (getP (release_resources oneProc 0 [1]).2 0).status = "Running" := by
  decide

/-- C8 (amended): after a granted request or a successful release the
affected process's status is "Finished" exactly when its need is the zero
vector, and an unsafe-denied request sets it to "Waiting"; a Finished
process (zero need) in a safe state stays Finished across any
`request_resources` call with a non-negative request, but `release_resources`
with a nonzero release moves it back to "Running" (see the counterexample). -/
theorem C8_finished_status (b : BankerAlgorithm) (pid : Nat) (req rel : List Int)
    (hG : Good b) (hpid : pid < b.num_processes) :
    ((request_resources b pid req).1.toBool = true →
      ((getP (request_resources b pid req).2 pid).status = "Finished" ↔
        ∀ j, j < b.num_resources →
          (getP (request_resources b pid req).2 pid).need.getD j 0 = 0)) ∧
    ((request_resources b pid req).1 = .unsafeDenied →
      (getP (request_resources b pid req).2 pid).status = "Waiting") ∧
    ((release_resources b pid rel).1 = .released →
      ((getP (release_resources b pid rel).2 pid).status = "Finished" ↔
        ∀ j, j < b.num_resources →
          (getP (release_resources b pid rel).2 pid).need.getD j 0 = 0)) ∧
    ((getP b pid).status = "Finished" → _is_finished (getP b pid) = true →
      VecOK b.num_resources req → (is_safe_state b).1 = true →
      (getP (request_resources b pid req).2 pid).status = "Finished") := by
  have hpl : pid < b.processes.length := by
    have := hG.2.1
    omega
  obtain ⟨hm, ha, hn, hnc, hne⟩ := goodProc_getP hG hpl
  have hplt : pid < (tentative b pid req).processes.length := by
    show pid < (b.processes.set pid (tentProc b pid req)).length
    rw [List.length_set]
    exact hpl
  refine ⟨?_, ?_, ?_, ?_⟩
  · -- status iff zero need, after a grant
    intro hgrant
    by_cases h1 : anyGT b.num_resources req (getP b pid).need
    · rw [request_eq_exceeds h1] at hgrant
      simp [ReqResult.toBool] at hgrant
    by_cases h2 : anyGT b.num_resources req b.available
    · rw [request_eq_insufficient (by simpa using h1) h2] at hgrant
      simp [ReqResult.toBool] at hgrant
    by_cases h3 : (_is_safe_state (tentative b pid req)).1
    · have e2 : (request_resources b pid req).2 = commit (tentative b pid req) pid := by
        rw [request_eq_granted (by simpa using h1) (by simpa using h2) h3]
      rw [e2, getP_commit_self hplt, grantProc_tentative hpl]
      have hqlen : (update_need (tentProc b pid req)).need.length = b.num_resources := by
        simp [update_need, tentProc, hm]
      exact ifstatus_iff hqlen
    · rw [request_eq_denied (by simpa using h1) (by simpa using h2) (by simpa using h3)]
        at hgrant
      simp [ReqResult.toBool] at hgrant
  · -- an unsafe denial rewrites the status to "Waiting"
    intro hden
    by_cases h1 : anyGT b.num_resources req (getP b pid).need
    · rw [request_eq_exceeds h1] at hden
      simp at hden
    by_cases h2 : anyGT b.num_resources req b.available
    · rw [request_eq_insufficient (by simpa using h1) h2] at hden
      simp at hden
    by_cases h3 : (_is_safe_state (tentative b pid req)).1
    · rw [request_eq_granted (by simpa using h1) (by simpa using h2) h3] at hden
      simp at hden
    · have e2 : (request_resources b pid req).2 = rollback (tentative b pid req) pid req := by
        rw [request_eq_denied (by simpa using h1) (by simpa using h2) (by simpa using h3)]
      rw [e2, getP_rollback_self hplt, rbProc_tentative hpl]
  · -- status iff zero need, after a successful release
    intro hrel
    by_cases h1 : anyGT b.num_resources rel (getP b pid).allocation
    · rw [release_eq_over h1] at hrel
      simp at hrel
    · have h1f : anyGT b.num_resources rel (getP b pid).allocation = false := by
        simpa using h1
      have e2 : (release_resources b pid rel).2 = releaseApply b pid rel := by
        rw [release_eq_ok h1f]
      rw [e2, getP_releaseApply_self hpl]
      have hq2len : (update_need
          { getP b pid with
            allocation := vecSub b.num_resources (getP b pid).allocation rel }).need.length =
          b.num_resources := by
        simp [update_need, hm]
      exact ifstatus_iff hq2len
  · -- a Finished process in a safe state stays Finished across requests
    intro hstat hfin hreq hsafe
    obtain ⟨hreqlen, hreqpos⟩ := hreq
    by_cases h1 : anyGT b.num_resources req (getP b pid).need
    · rw [request_eq_exceeds h1]
      exact hstat
    by_cases h2 : anyGT b.num_resources req b.available
    · rw [request_eq_insufficient (by simpa using h1) h2]
      exact hstat
    · have h1f := anyGT_eq_false_iff.mp (show anyGT b.num_resources req (getP b pid).need
        = false by simpa using h1)
      have hz : ∀ j, j < b.num_resources → req.getD j 0 = 0 := by
        intro j hj
        have hge : 0 ≤ req.getD j 0 := getD_nonneg hreqpos j
        have hle := h1f j hj
        have hneed0 : (getP b pid).need.getD j 0 = 0 := (is_finished_iff hn).mp hfin j hj
        omega
      have hbt : tentative b pid req = b := tentative_zero hG hz
      have h3 : (_is_safe_state (tentative b pid req)).1 = true := by
        rw [hbt]
        exact hsafe
      rw [request_eq_granted (by simpa using h1) (by simpa using h2) h3]
      show (getP (commit (tentative b pid req) pid) pid).status = "Finished"
      rw [hbt, getP_commit_self hpl]
      show (if _is_finished (update_need (getP b pid)) then "Finished" else "Running") =
        "Finished"
      rw [update_need_self hm hn hnc, if_pos hfin]

/-- Witness for the amended C8: in `safePair` process 0 is Finished in a
safe state and a zero request leaves it Finished. -/
theorem C8_finished_status_witness :
    (getP (request_resources safePair 0 [0]).2 0).status = "Finished" :=
  (C8_finished_status safePair 0 [0] [0] (by decide) (by decide)).2.2.2
    (by decide) (by decide) (by decide) (by decide)

/-- C10: a zero request passes both rejection checks vacuously and is
granted exactly when the current configuration is already safe; in either
outcome `available` and every process's allocation and need are unchanged,
yet the requester's status is rewritten — "Finished"/"Running" on a grant,
"Waiting" on a denial — so a Waiting process holding nothing can be
reclassified "Running" without receiving any resources. -/
theorem C10_zero_request (b : BankerAlgorithm) (pid : Nat) (req : List Int)
    (hG : Good b) (hpid : pid < b.num_processes)
    (hreq : req = List.replicate b.num_resources 0) :
    ((request_resources b pid req).1.toBool = (is_safe_state b).1) ∧
    ((request_resources b pid req).2.available = b.available) ∧
    (∀ i, (getP (request_resources b pid req).2 i).allocation = (getP b i).allocation ∧
      (getP (request_resources b pid req).2 i).need = (getP b i).need) ∧
    ((request_resources b pid req).1.toBool = true →
      (getP (request_resources b pid req).2 pid).status =
        (if _is_finished (getP b pid) then "Finished" else "Running")) ∧
    ((request_resources b pid req).1.toBool = false →
      (getP (request_resources b pid req).2 pid).status = "Waiting") := by
  have hpl : pid < b.processes.length := by
    have := hG.2.1
    omega
  obtain ⟨hm, ha, hn, hnc, hne⟩ := goodProc_getP hG hpl
  have hz : ∀ j, j < b.num_resources → req.getD j 0 = 0 := by
    intro j hj
    rw [hreq]
    exact getD_replicate_zero
  have h1f : anyGT b.num_resources req (getP b pid).need = false := by
    rw [anyGT_eq_false_iff]
    intro j hj
    rw [hz j hj]
    exact hne j hj
  have h2f : anyGT b.num_resources req b.available = false := by
    rw [anyGT_eq_false_iff]
    intro j hj
    rw [hz j hj]
    exact getD_nonneg hG.2.2.1 j
  have hbt : tentative b pid req = b := tentative_zero hG hz
  by_cases h3 : (_is_safe_state (tentative b pid req)).1
  · have e := request_eq_granted h1f h2f h3
    have h3b : (is_safe_state b).1 = true := by
      show (_is_safe_state b).1 = true
      rw [← hbt]
      exact h3
    refine ⟨by rw [e, h3b]; rfl, ?_, ?_, ?_, ?_⟩
    · rw [e]
      show (commit (tentative b pid req) pid).available = b.available
      rw [hbt]
      rfl
    · intro i
      rw [e]
      show (getP (commit (tentative b pid req) pid) i).allocation =
          (getP b i).allocation ∧
        (getP (commit (tentative b pid req) pid) i).need = (getP b i).need
      rw [hbt]
      by_cases hi : pid = i
      · subst hi
        rw [getP_commit_self hpl]
        constructor
        · show (update_need (getP b pid)).allocation = (getP b pid).allocation
          rw [update_need_self hm hn hnc]
        · show (update_need (getP b pid)).need = (getP b pid).need
          rw [update_need_self hm hn hnc]
      · have hgi : getP (commit b pid) i = getP b i := by
          simp only [commit, getP]
          rw [getD_set_ne _ _ hi]
        rw [hgi]
        exact ⟨rfl, rfl⟩
    · intro _
      rw [e]
      show (getP (commit (tentative b pid req) pid) pid).status =
        if _is_finished (getP b pid) then "Finished" else "Running"
      rw [hbt, getP_commit_self hpl]
      show (if _is_finished (update_need (getP b pid)) then "Finished" else "Running") = _
      rw [update_need_self hm hn hnc]
    · intro hfalse
      rw [e] at hfalse
      simp [ReqResult.toBool] at hfalse
  · have h3f : (_is_safe_state (tentative b pid req)).1 = false := by simpa using h3
    have e := request_eq_denied h1f h2f h3f
    have h3b : (is_safe_state b).1 = false := by
      show (_is_safe_state b).1 = false
      rw [← hbt]
      exact h3f
    have hrb := @rollback_restores b pid req hG
    have hgw : getP { b with
        processes := b.processes.set pid { getP b pid with status := "Waiting" } } pid =
        { getP b pid with status := "Waiting" } := by
      simp only [getP]
      exact getD_set_self hpl
    refine ⟨by rw [e, h3b]; rfl, ?_, ?_, ?_, ?_⟩
    · rw [e]
      show (rollback (tentative b pid req) pid req).available = b.available
      rw [hrb]
    · intro i
      rw [e]
      show (getP (rollback (tentative b pid req) pid req) i).allocation =
          (getP b i).allocation ∧
        (getP (rollback (tentative b pid req) pid req) i).need = (getP b i).need
      rw [hrb]
      by_cases hi : pid = i
      · subst hi
        rw [hgw]
        exact ⟨rfl, rfl⟩
      · have hgi : getP { b with
            processes := b.processes.set pid { getP b pid with status := "Waiting" } } i =
            getP b i := by
          simp only [getP]
          rw [getD_set_ne _ _ hi]
        rw [hgi]
        exact ⟨rfl, rfl⟩
    · intro htrue
      rw [e] at htrue
      simp [ReqResult.toBool] at htrue
    · intro _
      rw [e]
      show (getP (rollback (tentative b pid req) pid req) pid).status = "Waiting"
      rw [hrb, hgw]

/-- Witness for C10: the fresh single-process configuration is safe, so the
zero request is granted; process 0 still holds nothing but is reclassified
"Running". -/
theorem C10_zero_request_witness :
    (request_resources (initBanker [1] [[1]]) 0 [0]).1.toBool =
      (is_safe_state (initBanker [1] [[1]])).1 ∧
    (getP (request_resources (initBanker [1] [[1]]) 0 [0]).2 0).allocation =
      (getP (initBanker [1] [[1]]) 0).allocation := by
  have h := C10_zero_request (initBanker [1] [[1]]) 0 [0] (by decide) (by decide) (by decide)
  exact ⟨h.1, (h.2.2.1 0).1⟩

end OSSim
